import Mathlib

/-!
Verification development for the npm-dev-mcp process supervisor.

The definitions below are a shallow embedding of the TypeScript sources:
  * src/components/EnvLoader.ts (concatenated file holding EnvLoader,
    HealthChecker, and two generations of ProcessManager),
  * src/components/StateManager.ts (two generations of StateManager),
  * src/utils/logger.ts (Logger and SafeErrorHandler),
  * src/initialization/MCPServerInitializer (unnamed parts 005/006),
  * src/tools/autoRecover (unnamed part 001) and recoverFromState (part 003).

External effects (the OS process table, the wall clock, the file system,
child-process events) are passed in explicitly as oracles or state values;
JavaScript exceptions are modelled with Except, and code that catches all
exceptions is modelled as a total function over the possible failure modes.
-/

/-- Status of a managed dev process (DevProcess.status in src/types). -/
inductive PStatus where
  | starting
  | running
  | stopped
  | error
deriving DecidableEq, Repr

/-- The DevProcess record (src/types): pid, working directory, status,
start timestamp and discovered ports.  Timestamps are modelled as Nat. -/
structure DevProcess where
  pid : Nat
  directory : String
  status : PStatus
  startTime : Nat
  ports : List Nat
deriving DecidableEq, Repr

/- ======================= HealthChecker (C7) ======================= -/

/-- NodeJS.MemoryUsage, restricted to the fields HealthChecker reads. -/
structure MemoryUsage where
  heapUsed : Nat
  rss : Nat
  external : Nat
deriving DecidableEq, Repr

/-- HealthChecker.checkMemoryUsage: heapUsed under 500MB and rss under
750MB (src/components/EnvLoader.ts lines 208-213). -/
def checkMemoryUsage (m : MemoryUsage) : Bool :=
  decide (m.heapUsed < 500 * 1024 * 1024) && decide (m.rss < 750 * 1024 * 1024)

/-- HealthChecker.checkProcessManager (lines 218-228): returns true unless
obtaining the ProcessManager instance throws; the oracle pmThrows says
whether that call throws. -/
def checkProcessManager (pmThrows : Bool) : Bool :=
  !pmThrows

/-- HealthChecker.checkDevServer (lines 233-249): true when there is no
current process (stopped is healthy), otherwise true iff the current
process is not in status error; a throwing ProcessManager yields false. -/
def checkDevServer (pmThrows : Bool) (current : Option DevProcess) : Bool :=
  if pmThrows then
    false
  else
    match current with
    | none => true
    | some p => decide (p.status ≠ PStatus.error)

/-- Dev-server status summary values used by HealthStatus. -/
inductive DevServerStatus where
  | running
  | stopped
  | error
deriving DecidableEq, Repr

/-- The three sub-checks of HealthStatus.checks. -/
structure HealthChecks where
  memory : Bool
  processManager : Bool
  devServer : Bool
deriving DecidableEq, Repr

/-- HealthStatus, restricted to the fields the claims mention. -/
structure HealthStatusR where
  isHealthy : Bool
  devServerStatus : DevServerStatus
  checks : HealthChecks
deriving DecidableEq, Repr

/-- HealthChecker.performHealthCheck (src/components/EnvLoader.ts lines
155-196): evaluates the three sub-checks, summarises the dev-server status
(running / error / otherwise stopped) and sets isHealthy to the
conjunction of the checks. -/
def performHealthCheck (mem : MemoryUsage) (pmThrows : Bool)
    (current : Option DevProcess) : HealthStatusR :=
  let checks : HealthChecks :=
    { memory := checkMemoryUsage mem
      processManager := checkProcessManager pmThrows
      devServer := checkDevServer pmThrows current }
  let devServerStatus :=
    if pmThrows then
      DevServerStatus.error
    else
      match current with
      | some p =>
          if p.status = PStatus.running then DevServerStatus.running
          else if p.status = PStatus.error then DevServerStatus.error
          else DevServerStatus.stopped
      | none => DevServerStatus.stopped
  { isHealthy := checks.memory && checks.processManager && checks.devServer
    devServerStatus := devServerStatus
    checks := checks }

/- ============== ProcessManager registry and start (C1, C2) ============== -/

/-- Child-process events observed by the handlers installed in
ProcessManager.setupProcessHandlers (EnvLoader.ts lines 514-555):
the spawn, error and exit events, and stdout data carrying parsed ports. -/
inductive PMEvent where
  | spawned
  | errored
  | exited
  | output (ports : List Nat)
deriving DecidableEq, Repr

/-- The status written by a handler, as a function of the event and the
current status.  Each handler assigns a fixed status unconditionally:
spawn sets running, error sets error, exit sets stopped (lines 518-540). -/
def statusAfterEvent (e : PMEvent) (s : PStatus) : PStatus :=
  match e with
  | PMEvent.spawned => PStatus.running
  | PMEvent.errored => PStatus.error
  | PMEvent.exited => PStatus.stopped
  | PMEvent.output _ => s

/-- The stdout data handler merges parsed ports with the existing list and
removes duplicates (lines 543-554); other events leave ports unchanged. -/
def portsAfterEvent (e : PMEvent) (ps : List Nat) : List Nat :=
  match e with
  | PMEvent.output newPorts => (ps ++ newPorts).dedup
  | _ => ps

/-- Applying one child-process event to a DevProcess entry. -/
def applyEvent (p : DevProcess) (e : PMEvent) : DevProcess :=
  { p with
      status := statusAfterEvent e p.status
      ports := portsAfterEvent e p.ports }

/-- The final promotion in ProcessManager.waitForProcessStart (lines
577-582): an entry still in starting after the bounded wait is
optimistically promoted to running; other statuses are left unchanged. -/
def waitPromote (s : PStatus) : PStatus :=
  if s = PStatus.starting then PStatus.running else s

/-- The liveness demotion in ProcessManager.getStatus (lines 469-471): an
entry believed running whose process is no longer live is demoted to
stopped; all other combinations are unchanged. -/
def getStatusDemote (isRunning : Bool) (s : PStatus) : PStatus :=
  if !isRunning && s = PStatus.running then PStatus.stopped else s

/-- The in-memory registry of the multi-process ProcessManager:
an association list from working directory to DevProcess entry
(the Map held in ProcessManager.processes). -/
def Registry := List (String × DevProcess)

/-- Map.get on the registry. -/
def lookupDir (reg : Registry) (dir : String) : Option DevProcess :=
  (List.find? (fun e => e.1 = dir) reg).map (fun e => e.2)

/-- Map.delete on the registry (ProcessManager.cleanupProcess removes the
entry for the directory). -/
def eraseDir (reg : Registry) (dir : String) : Registry :=
  List.filter (fun e => ¬ e.1 = dir) reg

/-- Map.set on the registry. -/
def insertDir (reg : Registry) (dir : String) (p : DevProcess) : Registry :=
  (dir, p) :: eraseDir reg dir

/-- Result of a startDevServer call: the returned DevProcess, whether a
child process was spawned, and the registry afterwards. -/
structure StartResult where
  info : DevProcess
  spawned : Bool
  registry : Registry

/-- The spawn path of ProcessManager.startDevServer (lines 342-406): spawn
a child with a fresh pid, register a starting entry, let the installed
handlers consume the child-process events, then run waitForProcessStart:
if the entry reached error the call throws (registry keeps the error
entry); an entry still in starting is promoted to running.  The events the
child produces before the call returns are passed as the oracle list. -/
def spawnNew (reg : Registry) (dir : String) (newPid : Nat) (now : Nat)
    (events : List PMEvent) : Except (String × Registry) StartResult :=
  let info0 : DevProcess :=
    { pid := newPid, directory := dir, status := PStatus.starting
      startTime := now, ports := [] }
  let info1 := events.foldl applyEvent info0
  if info1.status = PStatus.error then
    Except.error ("Failed to start dev server", insertDir reg dir info1)
  else
    let info2 := { info1 with status := waitPromote info1.status }
    Except.ok { info := info2, spawned := true, registry := insertDir reg dir info2 }

/-- ProcessManager.startDevServer for an explicit target directory
(EnvLoader.ts lines 318-406).  If a live entry already exists for the
directory it is returned as is, with no spawn; a stale (dead) entry is
cleaned up and a fresh child is spawned.  The oracle alive models
isProcessRunning over the OS process table. -/
def startDevServer (reg : Registry) (alive : Nat → Bool) (dir : String)
    (newPid : Nat) (now : Nat) (events : List PMEvent) :
    Except (String × Registry) StartResult :=
  match lookupDir reg dir with
  | some existing =>
      if alive existing.pid then
        Except.ok { info := existing, spawned := false, registry := reg }
      else
        spawnNew (eraseDir reg dir) dir newPid now events
  | none => spawnNew reg dir newPid now events

/- =================== Theorems: C7 and C1 =================== -/

/-- C7: performHealthCheck returns isHealthy = true if and only if all
three declared sub-checks (memory, processManager, devServer) pass; in
particular isHealthy is false whenever any single sub-check fails. -/
theorem performHealthCheck_isHealthy_iff_all_checks
    (mem : MemoryUsage) (pmThrows : Bool) (current : Option DevProcess) :
    (performHealthCheck mem pmThrows current).isHealthy =
      ((performHealthCheck mem pmThrows current).checks.memory &&
       (performHealthCheck mem pmThrows current).checks.processManager &&
       (performHealthCheck mem pmThrows current).checks.devServer) ∧
    ((performHealthCheck mem pmThrows current).isHealthy = true ↔
      (performHealthCheck mem pmThrows current).checks.memory = true ∧
      (performHealthCheck mem pmThrows current).checks.processManager = true ∧
      (performHealthCheck mem pmThrows current).checks.devServer = true) := by
  constructor
  · rfl
  · simp [performHealthCheck, Bool.and_assoc]

/-- C1: if the registry holds an entry for the key and its process is still
alive, a second startDevServer call returns that same entry (hence the same
pid), spawns no child, and leaves the registry unchanged.  Composed with a
first call that created the entry: the second call returns a record with
the pid the first call produced. -/
theorem startDevServer_idempotent_when_live (reg : Registry)
    (alive : Nat → Bool) (dir : String) (newPid : Nat) (now : Nat)
    (events : List PMEvent) (r : StartResult)
    (hfirst : startDevServer reg alive dir newPid now events = Except.ok r)
    (hspawned : r.spawned = true)
    (halive : alive r.info.pid = true)
    (p2 : Nat) (t2 : Nat) (ev2 : List PMEvent) :
    startDevServer r.registry alive dir p2 t2 ev2 =
      Except.ok { info := r.info, spawned := false, registry := r.registry } ∧
    r.info.pid = newPid := by
  have hpid : r.info.pid = newPid ∧ lookupDir r.registry dir = some r.info := by
    unfold startDevServer at hfirst
    cases hl : lookupDir reg dir with
    | some existing =>
        rw [hl] at hfirst
        by_cases ha : alive existing.pid = true
        · simp [ha] at hfirst
          rw [← hfirst] at hspawned
          simp at hspawned
        · simp [ha] at hfirst
          unfold spawnNew at hfirst
          by_cases herr :
              (List.foldl applyEvent
                { pid := newPid, directory := dir, status := PStatus.starting
                  startTime := now, ports := [] } events).status = PStatus.error
          · simp [herr] at hfirst
          · simp [herr] at hfirst
            constructor
            · rw [← hfirst]
              have : ∀ (q : DevProcess) (evs : List PMEvent),
                  (List.foldl applyEvent q evs).pid = q.pid := by
                intro q evs
                induction evs generalizing q with
                | nil => rfl
                | cons e tl ih => simpa [applyEvent] using ih (applyEvent q e)
              simp [this]
            · rw [← hfirst]
              simp [lookupDir, insertDir]
    | none =>
        rw [hl] at hfirst
        unfold spawnNew at hfirst
        by_cases herr :
            (List.foldl applyEvent
              { pid := newPid, directory := dir, status := PStatus.starting
                startTime := now, ports := [] } events).status = PStatus.error
        · simp [herr] at hfirst
        · simp [herr] at hfirst
          constructor
          · rw [← hfirst]
            have : ∀ (q : DevProcess) (evs : List PMEvent),
                (List.foldl applyEvent q evs).pid = q.pid := by
              intro q evs
              induction evs generalizing q with
              | nil => rfl
              | cons e tl ih => simpa [applyEvent] using ih (applyEvent q e)
            simp [this]
          · rw [← hfirst]
            simp [lookupDir, insertDir]
  refine ⟨?_, hpid.1⟩
  unfold startDevServer
  rw [hpid.2]
  simp [halive]

/-- Witness for C1: a registry holding a live entry for /a; a second start
call returns that entry unchanged, spawns nothing, and its pid is the pid
the first call (from the empty registry, no events, promoted by the wait
timeout) produced. -/
theorem startDevServer_idempotent_when_live_witness :
    startDevServer
        [("/a", { pid := 100, directory := "/a", status := PStatus.running,
                  startTime := 0, ports := [] })]
        (fun _ => true) "/a" 7 9 [] =
      Except.ok
        { info := { pid := 100, directory := "/a", status := PStatus.running,
                    startTime := 0, ports := [] }
          spawned := false
          registry := [("/a", { pid := 100, directory := "/a",
                                status := PStatus.running, startTime := 0,
                                ports := [] })] } ∧
    ({ pid := 100, directory := "/a", status := PStatus.running,
       startTime := 0, ports := [] } : DevProcess).pid = 100 :=
  startDevServer_idempotent_when_live [] (fun _ => true) "/a" 100 0 []
    { info := { pid := 100, directory := "/a", status := PStatus.running,
                startTime := 0, ports := [] }
      spawned := true
      registry := [("/a", { pid := 100, directory := "/a",
                            status := PStatus.running, startTime := 0,
                            ports := [] })] }
    rfl rfl rfl 7 9 []

/- =================== Status transitions (C2) =================== -/

/-- The transition set claimed for status mutations of a ManagedProcess
entry: starting to running, starting to error, running to stopped,
running to error. -/
def c2AllowedTransition (old new : PStatus) : Prop :=
  (old = PStatus.starting ∧ new = PStatus.running) ∨
  (old = PStatus.starting ∧ new = PStatus.error) ∨
  (old = PStatus.running ∧ new = PStatus.stopped) ∨
  (old = PStatus.running ∧ new = PStatus.error)

instance (old new : PStatus) : Decidable (c2AllowedTransition old new) := by
  unfold c2AllowedTransition
  infer_instance

/-- Counterexample to C2: the exit handler installed by
setupProcessHandlers sets the status to stopped unconditionally, so an
entry already in error transitions to stopped on an exit event; the change
from error to stopped leaves the error status and is not among the four
claimed transitions. -/
theorem exit_handler_escapes_error_status :
    statusAfterEvent PMEvent.exited PStatus.error = PStatus.stopped ∧
    statusAfterEvent PMEvent.exited PStatus.error ≠ PStatus.error ∧
    ¬ c2AllowedTransition PStatus.error
        (statusAfterEvent PMEvent.exited PStatus.error) := by
  decide

/-- The pid of an entry is never changed by the event handlers. -/
theorem foldl_applyEvent_pid (q : DevProcess) (evs : List PMEvent) :
    (List.foldl applyEvent q evs).pid = q.pid := by
  induction evs generalizing q with
  | nil => rfl
  | cons e tl ih => simpa [applyEvent] using ih (applyEvent q e)

/-- A successful run of the spawn path registers and returns a freshly
created record carrying the new pid of the spawned child. -/
theorem spawnNew_ok_spec (reg : Registry) (dir : String) (newPid now : Nat)
    (events : List PMEvent) (r : StartResult)
    (h : spawnNew reg dir newPid now events = Except.ok r) :
    r.spawned = true ∧ r.info.pid = newPid ∧
    lookupDir r.registry dir = some r.info := by
  unfold spawnNew at h
  by_cases herr :
      (List.foldl applyEvent
        { pid := newPid, directory := dir, status := PStatus.starting
          startTime := now, ports := [] } events).status = PStatus.error
  · simp [herr] at h
  · simp [herr] at h
    refine ⟨?_, ?_, ?_⟩
    · rw [← h]
    · rw [← h]
      simp [foldl_applyEvent_pid]
    · rw [← h]
      simp [lookupDir, insertDir]

/-- C2 amended: each status change the supervisor performs is of one of
the following forms.  The spawn, error and exit observers overwrite the
status with a fixed value (running, error, stopped) regardless of the
current status, so besides the four claimed transitions, an exit event
also performs starting to stopped and error to stopped; stdout data never
changes the status; the liveness demotion in getStatus changes a status
only from running to stopped (and only when the probe is negative); the
wait-timeout promotion changes a status only from starting to running;
and a fresh start over a dead entry registers and returns a new record
with the new pid rather than transitioning the old entry. -/
theorem supervisor_status_transitions_amended
    (reg : Registry) (alive : Nat → Bool) (dir : String) (newPid now : Nat)
    (events : List PMEvent) (e : DevProcess) (r : StartResult)
    (hlook : lookupDir reg dir = some e)
    (hdead : alive e.pid = false)
    (hok : startDevServer reg alive dir newPid now events = Except.ok r) :
    (∀ s, statusAfterEvent PMEvent.spawned s = PStatus.running) ∧
    (∀ s, statusAfterEvent PMEvent.errored s = PStatus.error) ∧
    (∀ s, statusAfterEvent PMEvent.exited s = PStatus.stopped) ∧
    (∀ ps s, statusAfterEvent (PMEvent.output ps) s = s) ∧
    (∀ b s, getStatusDemote b s = s ∨
      (s = PStatus.running ∧ b = false ∧
        getStatusDemote b s = PStatus.stopped)) ∧
    (∀ s, waitPromote s = s ∨
      (s = PStatus.starting ∧ waitPromote s = PStatus.running)) ∧
    (r.spawned = true ∧ r.info.pid = newPid ∧
      lookupDir r.registry dir = some r.info) := by
  refine ⟨?_, ?_, ?_, ?_, ?_, ?_, ?_⟩
  · intro s
    rfl
  · intro s
    rfl
  · intro s
    rfl
  · intro ps s
    rfl
  · intro b s
    cases b <;> cases s <;> simp [getStatusDemote]
  · intro s
    cases s <;> simp [waitPromote]
  · unfold startDevServer at hok
    rw [hlook] at hok
    simp [hdead] at hok
    exact spawnNew_ok_spec _ _ _ _ _ _ hok

/-- Witness for the amended C2 theorem: starting over a dead entry for /a
creates a fresh record with the new pid 60. -/
theorem supervisor_status_transitions_amended_witness :
    ({ info := { pid := 60, directory := "/a", status := PStatus.running,
                 startTime := 3, ports := [] }
       spawned := true
       registry := [("/a", { pid := 60, directory := "/a",
                             status := PStatus.running, startTime := 3,
                             ports := [] })] } : StartResult).spawned = true ∧
    ({ pid := 60, directory := "/a", status := PStatus.running,
       startTime := 3, ports := [] } : DevProcess).pid = 60 ∧
    lookupDir [("/a", { pid := 60, directory := "/a",
                        status := PStatus.running, startTime := 3,
                        ports := [] })] "/a" =
      some { pid := 60, directory := "/a", status := PStatus.running,
             startTime := 3, ports := [] } :=
  (supervisor_status_transitions_amended
    [("/a", { pid := 50, directory := "/a", status := PStatus.running,
              startTime := 0, ports := [] })]
    (fun _ => false) "/a" 60 3 []
    { pid := 50, directory := "/a", status := PStatus.running,
      startTime := 0, ports := [] }
    { info := { pid := 60, directory := "/a", status := PStatus.running,
                startTime := 3, ports := [] }
      spawned := true
      registry := [("/a", { pid := 60, directory := "/a",
                            status := PStatus.running, startTime := 3,
                            ports := [] })] }
    rfl rfl rfl).2.2.2.2.2.2

/- =================== MCPServerInitializer (C6) =================== -/

/-- Per-service status of the staged initializer
(src/initialization/MCPServerInitializer, unnamed parts 005 and 006). -/
inductive SStatus where
  | pending
  | initializing
  | ready
  | failed
deriving DecidableEq, Repr

/-- The initializer state: the serviceStatus map and the set of service
names with an in-flight initialization promise (servicePromises keys). -/
structure InitState where
  status : List (String × SStatus)
  inFlight : List String
deriving DecidableEq, Repr

/-- serviceStatus.get: the recorded status of a service, if any. -/
def statusOf (st : InitState) (n : String) : Option SStatus :=
  (List.find? (fun e => e.1 = n) st.status).map (fun e => e.2)

/-- serviceStatus.set. -/
def setStatus (st : InitState) (n : String) (s : SStatus) : InitState :=
  { st with status := (n, s) :: List.filter (fun e => ¬ e.1 = n) st.status }

/-- Outcome of one initializeService call, run to completion: the
initializer state afterwards, whether the initialization function was
invoked, whether the service passed through the initializing status during
the call, and whether the call re-raised the failure of the function. -/
structure InitOutcome where
  state : InitState
  ranFn : Bool
  enteredInitializing : Bool
  threw : Bool
deriving DecidableEq, Repr

/-- MCPServerInitializer.initializeService (unnamed part 005 lines 69-101),
as the state transformer of one call run to completion.  The oracle fnOk
tells whether the initialization function initFn resolves or rejects.
Returns unchanged if the service is already ready; joins an in-flight
initialization without running initFn again; otherwise marks the service
initializing, runs initFn, marks ready on success or failed on error
(re-raising), and the finally clause removes the in-flight marker, so the
in-flight set is back to its initial value when the call completes. -/
def initializeService (st : InitState) (n : String) (fnOk : Bool) :
    InitOutcome :=
  if statusOf st n = some SStatus.ready then
    { state := st, ranFn := false, enteredInitializing := false, threw := false }
  else if n ∈ st.inFlight then
    { state := st, ranFn := false, enteredInitializing := false, threw := false }
  else
    let st1 := setStatus st n SStatus.initializing
    if fnOk then
      { state := setStatus st1 n SStatus.ready
        ranFn := true, enteredInitializing := true, threw := false }
    else
      { state := setStatus st1 n SStatus.failed
        ranFn := true, enteredInitializing := true, threw := true }

/-- Counterexample to C6: a service whose status is failed (and whose
in-flight marker was already cleared by the finally clause, as it always
is on completion) is initialized again by the next initializeService call:
the function runs again and the service re-enters initializing, so failed
is not terminal for initializeService. -/
theorem initializeService_reruns_failed_service :
    (initializeService
      { status := [("stateManager", SStatus.failed)], inFlight := [] }
      "stateManager" true).ranFn = true ∧
    (initializeService
      { status := [("stateManager", SStatus.failed)], inFlight := [] }
      "stateManager" true).enteredInitializing = true ∧
    statusOf (initializeService
      { status := [("stateManager", SStatus.failed)], inFlight := [] }
      "stateManager" true).state "stateManager" = some SStatus.ready := by
  decide

/-- C6 amended: only ready is terminal for initializeService.  A call on a
ready service is a complete no-op (state unchanged, the function does not
run, initializing is not re-entered); a call while an initialization for
the same name is in flight joins it without running the function; but a
call on a failed service with no in-flight initialization re-enters
initializing and runs the initialization function again. -/
theorem initializeService_ready_terminal_failed_retried
    (st : InitState) (n : String) (fnOk : Bool) :
    (statusOf st n = some SStatus.ready →
      initializeService st n fnOk =
        { state := st, ranFn := false, enteredInitializing := false,
          threw := false }) ∧
    (n ∈ st.inFlight →
      (initializeService st n fnOk).ranFn = false ∧
      (initializeService st n fnOk).state = st) ∧
    (statusOf st n = some SStatus.failed → n ∉ st.inFlight →
      (initializeService st n fnOk).ranFn = true ∧
      (initializeService st n fnOk).enteredInitializing = true) := by
  refine ⟨?_, ?_, ?_⟩
  · intro h
    simp [initializeService, h]
  · intro h
    by_cases hr : statusOf st n = some SStatus.ready
    · simp [initializeService, hr]
    · simp [initializeService, hr, h]
  · intro hf hni
    have hr : ¬ statusOf st n = some SStatus.ready := by
      rw [hf]
      simp
    simp [initializeService, hr, hni]
    cases fnOk <;> simp

/-- Witness for the amended C6 theorem: a ready service is left untouched. -/
theorem initializeService_ready_terminal_failed_retried_witness :
    initializeService
        { status := [("healthChecker", SStatus.ready)], inFlight := [] }
        "healthChecker" false =
      { state := { status := [("healthChecker", SStatus.ready)],
                   inFlight := [] }
        ranFn := false, enteredInitializing := false, threw := false } :=
  (initializeService_ready_terminal_failed_retried
    { status := [("healthChecker", SStatus.ready)], inFlight := [] }
    "healthChecker" false).1 rfl

/- =================== StateManager (C3, C4, C5, C9) =================== -/

/-- Persisted per-process summary stored under devProcesses
(ServerState in src/components/StateManager.ts, newer generation). -/
structure PersistedProc where
  pid : Nat
  directory : String
  status : PStatus
  startTime : Nat
  ports : List Nat
  command : String
deriving DecidableEq, Repr

/-- One detected project of the persisted projectContext. -/
structure ProjectEntry where
  directory : String
  name : String
  devScript : String
  hasEnvFile : Bool
  envPath : Option String
deriving DecidableEq, Repr

/-- The persisted projectContext summary. -/
structure ProjectContextS where
  currentDirectory : String
  detectedProjects : List ProjectEntry
deriving DecidableEq, Repr

/-- The persisted healthStatus summary. -/
structure HealthPersist where
  lastHealthy : Nat
  consecutiveFailures : Nat
  lastError : Option String
deriving DecidableEq, Repr

/-- A state object as JavaScript sees it: every top-level key of
ServerState may be absent, since JSON.parse output is cast unchecked and
Partial values omit keys.  A field value of none models an absent key. -/
structure StateObj where
  timestamp : Option Nat
  version : Option String
  devProcesses : Option (List (String × PersistedProc))
  projectContext : Option ProjectContextS
  healthStatus : Option HealthPersist
deriving DecidableEq, Repr

/-- The empty object, the default value safeJsonParse falls back to. -/
def emptyStateObj : StateObj :=
  { timestamp := none, version := none, devProcesses := none
    projectContext := none, healthStatus := none }

/-- The fresh state created when no existing state can be read
(StateManager.saveState lines 487-492): current timestamp, version 1.0.0. -/
def defaultNewState (now : Nat) : StateObj :=
  { timestamp := some now, version := some "1.0.0", devProcesses := none
    projectContext := none, healthStatus := none }

/-- One top-level key of the JavaScript object spread: the patch value
wins when the key is present, otherwise the current value is kept. -/
def spreadKey {α : Type} (patchVal curVal : Option α) : Option α :=
  match patchVal with
  | some v => some v
  | none => curVal

/-- The merge in StateManager.saveState (lines 495-499):
newState = spread of currentState, then the patch, then an explicit
timestamp of the present instant, which always wins. -/
def mergeSpread (cur patch : StateObj) (now : Nat) : StateObj :=
  { timestamp := some now
    version := spreadKey patch.version cur.version
    devProcesses := spreadKey patch.devProcesses cur.devProcesses
    projectContext := spreadKey patch.projectContext cur.projectContext
    healthStatus := spreadKey patch.healthStatus cur.healthStatus }

/-- The content of the state file as a parser sees it: absent, blank,
textually invalid JSON, valid JSON that is not an object (for example a
bare number or null), or a valid object. -/
inductive FileData where
  | absent
  | empty
  | invalidJson (raw : String)
  | jsonNonObject (raw : String)
  | valid (s : StateObj)
deriving DecidableEq, Repr

/-- StateManager.loadStateFromFile, older generation
(StateManager.ts lines 297-338), which parses with JSON.parse: an absent
file throws from readFile; blank content throws Empty state file; content
that fails JSON.parse, or parses to a non-object, lands in the catch
block, which writes exactly one timestamped backup of the raw content and
rethrows JSON parse failed.  The second component counts the backup files
written by the call. -/
def loadStateFromFileJsonParse (f : FileData) : Except String StateObj × Nat :=
  match f with
  | FileData.absent => (Except.error "read failed", 0)
  | FileData.empty => (Except.error "Empty state file", 0)
  | FileData.invalidJson _ => (Except.error "JSON parse failed", 1)
  | FileData.jsonNonObject _ => (Except.error "JSON parse failed", 1)
  | FileData.valid s => (Except.ok s, 0)

/-- StateManager.loadStateFromFile, newer generation (StateManager.ts
lines 757-798), which parses with SafeErrorHandler.safeJsonParse
(src/utils/logger.ts lines 84-94): safeJsonParse catches the JSON.parse
failure internally and returns the supplied default, the empty object, so
textually invalid JSON yields the empty object, passes the structure
check (it is an object), and is returned with no backup written; only
valid JSON that is not an object reaches the catch block that writes the
backup. -/
def loadStateFromFileSafeParse (f : FileData) : Except String StateObj × Nat :=
  match f with
  | FileData.absent => (Except.error "read failed", 0)
  | FileData.empty => (Except.error "Empty state file", 0)
  | FileData.invalidJson _ => (Except.ok emptyStateObj, 0)
  | FileData.jsonNonObject _ => (Except.error "JSON parse failed", 1)
  | FileData.valid s => (Except.ok s, 0)

/-- StateManager.loadState, newer generation (lines 523-530): wraps
loadStateFromFile, returning null instead of propagating its failure. -/
def loadState (f : FileData) : Option StateObj × Nat :=
  match loadStateFromFileSafeParse f with
  | (Except.ok s, n) => (some s, n)
  | (Except.error _, n) => (none, n)

/-- StateManager.loadState over the older, JSON.parse based
loadStateFromFile (lines 143-150). -/
def loadStateJsonParse (f : FileData) : Option StateObj × Nat :=
  match loadStateFromFileJsonParse f with
  | (Except.ok s, n) => (some s, n)
  | (Except.error _, n) => (none, n)

/-- The state directory as saveState sees it: the state file content and
whether the advisory lock file exists. -/
structure FS where
  file : FileData
  lock : Bool
deriving DecidableEq, Repr

/-- Failure injection for saveState: whether writing the lock file throws
and whether writing the state file throws. -/
structure SaveFailures where
  createLockFails : Bool
  writeFails : Bool
deriving DecidableEq, Repr

/-- How a saveState call completed: skipped because the lock was held,
saved, or an internal failure that was caught and logged. -/
inductive SaveOutcome where
  | skipped
  | saved
  | errorLogged
deriving DecidableEq, Repr

/-- The current state saveState merges into: the parse of the state file,
or the fresh default when the read or parse fails (lines 482-492). -/
def currentStateOf (f : FileData) (now : Nat) : StateObj :=
  match (loadStateFromFileSafeParse f).1 with
  | Except.ok s => s
  | Except.error _ => defaultNewState now

/-- The body of StateManager.saveState after the lock check (lines
478-512): create the lock file (a throw here propagates to the outer
catch), then inside try/finally read the current state, merge the patch,
write the state file (a throw propagates after the finally clause removed
the lock), and remove the lock.  An error carries the file-system state
at the moment the exception leaves this body. -/
def saveStateInner (fs : FS) (patch : StateObj) (now : Nat)
    (f : SaveFailures) : Except FS FS :=
  if f.createLockFails then
    Except.error fs
  else
    let locked : FS := { fs with lock := true }
    let merged := mergeSpread (currentStateOf locked.file now) patch now
    if f.writeFails then
      Except.error { locked with lock := false }
    else
      Except.ok { file := FileData.valid merged, lock := false }

/-- removeLock (lines 817-826): deletes the lock file if present,
swallowing deletion errors. -/
def removeLockFS (fs : FS) : FS :=
  { fs with lock := false }

/-- StateManager.saveState (StateManager.ts lines 470-518): if the lock
file exists the call returns at once without writing; otherwise the body
runs, and any exception it raises is caught, logged, and followed by one
more removeLock, so the call itself never propagates an exception: the
result type has no error case, every path returns normally. -/
def saveState (fs : FS) (patch : StateObj) (now : Nat) (f : SaveFailures) :
    FS × SaveOutcome :=
  if fs.lock then
    (fs, SaveOutcome.skipped)
  else
    match saveStateInner fs patch now f with
    | Except.ok fs2 => (fs2, SaveOutcome.saved)
    | Except.error fsE => (removeLockFS fsE, SaveOutcome.errorLogged)

/-- C3: a saveState call that is not skipped by the lock, followed by
loadState, yields a snapshot that contains every top-level field the
patch carried (version, devProcesses, projectContext, healthStatus)
unchanged; the snapshot timestamp is the save instant, strictly greater
than the previously persisted timestamp whenever the clock has advanced
past it. -/
theorem saveState_then_loadState_roundtrip
    (fs : FS) (patch cur : StateObj) (now t0 : Nat)
    (hnl : fs.lock = false)
    (hfile : fs.file = FileData.valid cur)
    (ht0 : cur.timestamp = some t0)
    (hclock : t0 < now) :
    (saveState fs patch now { createLockFails := false, writeFails := false }).2 =
      SaveOutcome.saved ∧
    ∃ s : StateObj,
      loadState
        (saveState fs patch now
          { createLockFails := false, writeFails := false }).1.file =
        (some s, 0) ∧
      (∀ v, patch.devProcesses = some v → s.devProcesses = some v) ∧
      (∀ v, patch.projectContext = some v → s.projectContext = some v) ∧
      (∀ v, patch.healthStatus = some v → s.healthStatus = some v) ∧
      (∀ v, patch.version = some v → s.version = some v) ∧
      s.timestamp = some now ∧ t0 < now := by
  refine ⟨?_, ?_⟩
  · simp [saveState, hnl, saveStateInner]
  · refine ⟨mergeSpread cur patch now, ?_, ?_, ?_, ?_, ?_, ?_, hclock⟩
    · simp [saveState, hnl, saveStateInner, hfile, currentStateOf,
        loadStateFromFileSafeParse, loadState]
    · intro v hv
      simp [mergeSpread, spreadKey, hv]
    · intro v hv
      simp [mergeSpread, spreadKey, hv]
    · intro v hv
      simp [mergeSpread, spreadKey, hv]
    · intro v hv
      simp [mergeSpread, spreadKey, hv]
    · rfl

/-- Witness for C3 at a concrete patch over a concrete persisted state. -/
theorem saveState_then_loadState_roundtrip_witness :
    (saveState
      { file := FileData.valid
          { timestamp := some 10, version := some "1.0.0",
            devProcesses := none, projectContext := none,
            healthStatus := none }
        lock := false }
      { timestamp := none, version := none,
        devProcesses := some [("/a",
          { pid := 100, directory := "/a", status := PStatus.running,
            startTime := 4, ports := [3000], command := "npm run dev" })],
        projectContext := none, healthStatus := none }
      11 { createLockFails := false, writeFails := false }).2 =
      SaveOutcome.saved ∧
    ∃ s : StateObj,
      loadState
        (saveState
          { file := FileData.valid
              { timestamp := some 10, version := some "1.0.0",
                devProcesses := none, projectContext := none,
                healthStatus := none }
            lock := false }
          { timestamp := none, version := none,
            devProcesses := some [("/a",
              { pid := 100, directory := "/a", status := PStatus.running,
                startTime := 4, ports := [3000], command := "npm run dev" })],
            projectContext := none, healthStatus := none }
          11 { createLockFails := false, writeFails := false }).1.file =
        (some s, 0) ∧
      (∀ v,
        ({ timestamp := none, version := none,
           devProcesses := some [("/a",
             { pid := 100, directory := "/a", status := PStatus.running,
               startTime := 4, ports := [3000], command := "npm run dev" })],
           projectContext := none, healthStatus := none } : StateObj).devProcesses
          = some v → s.devProcesses = some v) ∧
      (∀ v,
        ({ timestamp := none, version := none,
           devProcesses := some [("/a",
             { pid := 100, directory := "/a", status := PStatus.running,
               startTime := 4, ports := [3000], command := "npm run dev" })],
           projectContext := none, healthStatus := none } : StateObj).projectContext
          = some v → s.projectContext = some v) ∧
      (∀ v,
        ({ timestamp := none, version := none,
           devProcesses := some [("/a",
             { pid := 100, directory := "/a", status := PStatus.running,
               startTime := 4, ports := [3000], command := "npm run dev" })],
           projectContext := none, healthStatus := none } : StateObj).healthStatus
          = some v → s.healthStatus = some v) ∧
      (∀ v,
        ({ timestamp := none, version := none,
           devProcesses := some [("/a",
             { pid := 100, directory := "/a", status := PStatus.running,
               startTime := 4, ports := [3000], command := "npm run dev" })],
           projectContext := none, healthStatus := none } : StateObj).version
          = some v → s.version = some v) ∧
      s.timestamp = some 11 ∧ 10 < 11 :=
  saveState_then_loadState_roundtrip
    { file := FileData.valid
        { timestamp := some 10, version := some "1.0.0",
          devProcesses := none, projectContext := none,
          healthStatus := none }
      lock := false }
    { timestamp := none, version := none,
      devProcesses := some [("/a",
        { pid := 100, directory := "/a", status := PStatus.running,
          startTime := 4, ports := [3000], command := "npm run dev" })],
      projectContext := none, healthStatus := none }
    { timestamp := some 10, version := some "1.0.0",
      devProcesses := none, projectContext := none, healthStatus := none }
    11 10 rfl rfl rfl (by decide)

/-- C5: a saveState call that observes the advisory lock held (here: the
file-system state after a concurrent saver created the lock) returns
without writing, without raising, and without touching the lock;
afterwards the lock-holding call completes and a subsequent loadState
returns exactly the data that call merged and wrote. -/
theorem saveState_skip_when_locked_loses_no_data
    (fs0 : FS) (x1 x2 : StateObj) (now1 now2 : Nat)
    (hnl : fs0.lock = false) :
    saveState { fs0 with lock := true } x2 now2
        { createLockFails := false, writeFails := false } =
      ({ fs0 with lock := true }, SaveOutcome.skipped) ∧
    (saveState fs0 x1 now1
        { createLockFails := false, writeFails := false }).2 =
      SaveOutcome.saved ∧
    loadState
        (saveState fs0 x1 now1
          { createLockFails := false, writeFails := false }).1.file =
      (some (mergeSpread (currentStateOf fs0.file now1) x1 now1), 0) := by
  refine ⟨?_, ?_, ?_⟩
  · simp [saveState]
  · simp [saveState, hnl, saveStateInner]
  · simp [saveState, hnl, saveStateInner, loadState, loadStateFromFileSafeParse]

/-- Witness for C5: second saver skips while the first holds the lock over
an initially absent state file; the loaded data is the first call's merge. -/
theorem saveState_skip_when_locked_loses_no_data_witness :
    saveState { file := FileData.absent, lock := true }
        { timestamp := none, version := none, devProcesses := none
          projectContext := some { currentDirectory := "/b",
                                   detectedProjects := [] }
          healthStatus := none }
        8 { createLockFails := false, writeFails := false } =
      ({ file := FileData.absent, lock := true }, SaveOutcome.skipped) ∧
    (saveState { file := FileData.absent, lock := false }
        { timestamp := none, version := none, devProcesses := none
          projectContext := none
          healthStatus := some { lastHealthy := 2, consecutiveFailures := 0,
                                 lastError := none } }
        7 { createLockFails := false, writeFails := false }).2 =
      SaveOutcome.saved ∧
    loadState
        (saveState { file := FileData.absent, lock := false }
          { timestamp := none, version := none, devProcesses := none
            projectContext := none
            healthStatus := some { lastHealthy := 2, consecutiveFailures := 0,
                                   lastError := none } }
          7 { createLockFails := false, writeFails := false }).1.file =
      (some (mergeSpread (currentStateOf FileData.absent 7)
              { timestamp := none, version := none, devProcesses := none
                projectContext := none
                healthStatus := some { lastHealthy := 2,
                                       consecutiveFailures := 0,
                                       lastError := none } }
              7), 0) :=
  saveState_skip_when_locked_loses_no_data
    { file := FileData.absent, lock := false }
    { timestamp := none, version := none, devProcesses := none
      projectContext := none
      healthStatus := some { lastHealthy := 2, consecutiveFailures := 0,
                             lastError := none } }
    { timestamp := none, version := none, devProcesses := none
      projectContext := some { currentDirectory := "/b",
                               detectedProjects := [] }
      healthStatus := none }
    7 8 rfl

/-- C9: for every patch and every modelled failure (unreadable or corrupt
state file, failing lock-file write, failing state-file write), saveState
returns normally, as manifested by its total result type with no error
case: every exception of the body is caught; and every call that was not
skipped by the held lock ends with the lock file removed, on the success
path and on every failure path alike.  A skipped call leaves the
file-system state, including the foreign lock, untouched. -/
theorem saveState_never_throws_and_releases_lock
    (fs : FS) (patch : StateObj) (now : Nat) (f : SaveFailures) :
    ((saveState fs patch now f).2 = SaveOutcome.skipped →
      (saveState fs patch now f).1 = fs ∧ fs.lock = true) ∧
    ((saveState fs patch now f).2 ≠ SaveOutcome.skipped →
      (saveState fs patch now f).1.lock = false) := by
  by_cases hl : fs.lock = true
  · constructor
    · intro _
      exact ⟨by simp [saveState, hl], hl⟩
    · intro h
      exact absurd (by simp [saveState, hl]) h
  · constructor
    · intro h
      exfalso
      revert h
      simp only [saveState, hl, if_false]
      cases hinner : saveStateInner fs patch now f <;> simp
    · intro _
      simp only [saveState, hl, if_false]
      unfold saveStateInner
      by_cases hc : f.createLockFails = true
      · simp [hc, removeLockFS]
      · by_cases hw : f.writeFails = true
        · simp [hc, hw, removeLockFS]
        · simp [hc, hw]

/-- Witness for C9: a save over a corrupt state file with a failing
state-file write still completes normally and removes the lock. -/
theorem saveState_never_throws_and_releases_lock_witness :
    ((saveState { file := FileData.invalidJson "oops", lock := false }
        emptyStateObj 5
        { createLockFails := false, writeFails := true }).2 =
          SaveOutcome.skipped →
      (saveState { file := FileData.invalidJson "oops", lock := false }
        emptyStateObj 5
        { createLockFails := false, writeFails := true }).1 =
          { file := FileData.invalidJson "oops", lock := false } ∧
      ({ file := FileData.invalidJson "oops", lock := false } : FS).lock = true) ∧
    ((saveState { file := FileData.invalidJson "oops", lock := false }
        emptyStateObj 5
        { createLockFails := false, writeFails := true }).2 ≠
          SaveOutcome.skipped →
      (saveState { file := FileData.invalidJson "oops", lock := false }
        emptyStateObj 5
        { createLockFails := false, writeFails := true }).1.lock = false) :=
  saveState_never_throws_and_releases_lock
    { file := FileData.invalidJson "oops", lock := false }
    emptyStateObj 5 { createLockFails := false, writeFails := true }

/-- C4, divergence at the failing input: on a state file whose content is
not valid JSON, the newer loadStateFromFile (built on safeJsonParse)
returns the empty object with no backup written and loadState hands that
empty object to its caller, while the older JSON.parse based
loadStateFromFile writes exactly one backup and fails, so its loadState
reports absent state.  The backup branch of the newer variant is
reachable only for valid JSON that is not an object. -/
theorem loadState_invalid_json_no_backup_in_safeParse_variant :
    loadStateFromFileSafeParse (FileData.invalidJson "not json") =
      (Except.ok emptyStateObj, 0) ∧
    loadState (FileData.invalidJson "not json") = (some emptyStateObj, 0) ∧
    loadStateFromFileJsonParse (FileData.invalidJson "not json") =
      (Except.error "JSON parse failed", 1) ∧
    loadStateJsonParse (FileData.invalidJson "not json") = (none, 1) ∧
    loadStateFromFileSafeParse (FileData.jsonNonObject "42") =
      (Except.error "JSON parse failed", 1) := by
  refine ⟨rfl, rfl, rfl, rfl, rfl⟩

/- =================== autoRecover (C8) =================== -/

/-- The external observations one autoRecover attempt makes
(src/tools/autoRecover, unnamed part 001 lines 274-398): the isHealthy
flag of the initial health check (none models the check throwing), the
statuses processManager.getStatus reports, the parsed success flag of
recoverFromState, whether the fallback startDevServer() call resolves,
and the isHealthy flag of the post-recovery health check (none models a
throw, which only records a warning and lets the loop continue). -/
structure AttemptEnv where
  preHealth : Option Bool
  statuses : List PStatus
  recoverySuccess : Bool
  startOk : Bool
  postHealth : Option Bool
deriving DecidableEq, Repr

/-- The observable result of autoRecover: the success flag, the number of
attempts consumed, and the attempts at which the fallback default
startDevServer() call (no directory argument, hence resolved against the
current project context or working directory) succeeded. -/
structure ARResult where
  success : Bool
  attempts : Nat
  defaultStarts : List Nat
deriving DecidableEq, Repr

/-- The every-check in step 2 of autoRecover over the statuses: true when
no known process is running, vacuously true when none are known. -/
def noRunning (statuses : List PStatus) : Bool :=
  statuses.all (fun s => decide (s ≠ PStatus.running))

/-- The while loop of autoRecover: remaining is maxRetries minus the
attempts already consumed.  Each iteration: health check, early success
return if healthy; process recovery, where with no running process
recoverFromState is tried and, if it reports failure, one default
process is started in the current context; ensureStateConsistency and the
settle delay have no observable effect on the result; then the
post-recovery health check, returning success if healthy, otherwise
looping until attempts are exhausted. -/
def autoRecoverAux (env : Nat → AttemptEnv) (attempts remaining : Nat)
    (ds : List Nat) : ARResult :=
  match remaining with
  | 0 => { success := false, attempts := attempts, defaultStarts := ds }
  | Nat.succ r =>
    let a := attempts + 1
    let e := env a
    if e.preHealth = some true then
      { success := true, attempts := a, defaultStarts := ds }
    else
      let ds1 :=
        if noRunning e.statuses then
          if e.recoverySuccess then ds
          else if e.startOk then ds ++ [a] else ds
        else ds
      if e.postHealth = some true then
        { success := true, attempts := a, defaultStarts := ds1 }
      else
        autoRecoverAux env a r ds1

/-- autoRecover(maxRetries): run the recovery loop from zero attempts. -/
def autoRecover (maxRetries : Nat) (env : Nat → AttemptEnv) : ARResult :=
  autoRecoverAux env 0 maxRetries []

/-- C8: with maxRetries = 2, when attempt 1 sees an unhealthy system, no
running process, and a state-driven recovery that reports no recoverable
entry, a fresh default process is started in the current context on
attempt 1, and once the post-recovery health check passes, autoRecover
returns overall success after that single attempt. -/
theorem autoRecover_fallback_start_then_success
    (env : Nat → AttemptEnv)
    (hpre : (env 1).preHealth = some false)
    (hnorun : noRunning (env 1).statuses = true)
    (hnorecover : (env 1).recoverySuccess = false)
    (hstart : (env 1).startOk = true)
    (hpost : (env 1).postHealth = some true) :
    autoRecover 2 env =
      { success := true, attempts := 1, defaultStarts := [1] } := by
  simp [autoRecover, autoRecoverAux, hpre, hnorun, hnorecover, hstart, hpost]

/-- Witness for C8: the concrete environment where the only known process
is dead, recovery finds nothing, and the post-recovery check passes. -/
theorem autoRecover_fallback_start_then_success_witness :
    autoRecover 2 (fun _ =>
      { preHealth := some false, statuses := [PStatus.stopped]
        recoverySuccess := false, startOk := true
        postHealth := some true }) =
      { success := true, attempts := 1, defaultStarts := [1] } :=
  autoRecover_fallback_start_then_success
    (fun _ =>
      { preHealth := some false, statuses := [PStatus.stopped]
        recoverySuccess := false, startOk := true
        postHealth := some true })
    rfl (by decide) rfl rfl rfl

/- =================== getStatus shallow copies (C10) =================== -/

/-- A DevProcess record as an object on the JavaScript heap: the scalar
fields are held directly, the ports field holds a reference into the
array heap, since arrays are shared by reference. -/
structure PInfo where
  pid : Nat
  directory : String
  status : PStatus
  startTime : Nat
  portsRef : Nat
deriving DecidableEq, Repr

/-- The mutable state behind the multi-process ProcessManager: the heap of
DevProcess objects (indexed by allocation order), the heap of ports
arrays, and the registry mapping each working directory to the index of
its info object. -/
structure Store where
  infos : List PInfo
  arrays : List (List Nat)
  registry : List (String × Nat)
deriving DecidableEq, Repr

/-- Reading a dangling reference; never reached under the wellformedness
hypotheses used below. -/
def dummyPInfo : PInfo :=
  { pid := 0, directory := "", status := PStatus.stopped, startTime := 0
    portsRef := 0 }

/-- Dereference an info object. -/
def infoAt (st : Store) (r : Nat) : PInfo :=
  st.infos.getD r dummyPInfo

/-- Dereference a ports array. -/
def arrAt (st : Store) (j : Nat) : List Nat :=
  st.arrays.getD j []

/-- The in-place update of one registry entry during a getStatus loop
iteration (EnvLoader.ts lines 465-480): demote a running entry whose
liveness probe is negative to stopped, then, when the process is live and
the entry reads an empty ports list, assign a freshly detected ports
array, allocated at the end of the array heap, to the entry. -/
def stepObj (alive : Nat → Bool) (st : Store) (r : Nat) : PInfo :=
  let o1 :=
    if alive (infoAt st r).pid = false ∧ (infoAt st r).status = PStatus.running
    then { infoAt st r with status := PStatus.stopped }
    else infoAt st r
  if alive o1.pid && decide (arrAt st o1.portsRef = []) then
    { o1 with portsRef := st.arrays.length }
  else o1

/-- The array heap after that iteration: grown by the freshly detected
ports array when the lazy backfill ran, unchanged otherwise. -/
def stepArrays (alive : Nat → Bool) (det : Nat → List Nat) (st : Store)
    (r : Nat) : List (List Nat) :=
  let o1 :=
    if alive (infoAt st r).pid = false ∧ (infoAt st r).status = PStatus.running
    then { infoAt st r with status := PStatus.stopped }
    else infoAt st r
  if alive o1.pid && decide (arrAt st o1.portsRef = []) then
    st.arrays ++ [det (infoAt st r).pid]
  else st.arrays

/-- One iteration of the loop in ProcessManager.getStatus (EnvLoader.ts
lines 465-483) over the entry of one directory: write the updated record
back to the entry object, then push the spread copy of the entry into the
result list.  The spread copy is a newly allocated object with the same
field values, in particular the same ports-array reference; its index
(st.infos.length, allocation at the end of the heap) is returned as the
second component. -/
def getStatusStep (alive : Nat → Bool) (det : Nat → List Nat)
    (st : Store) (e : String × Nat) : Store × Nat :=
  ({ infos := (st.infos.set e.2 (stepObj alive st e.2)) ++ [stepObj alive st e.2]
     arrays := stepArrays alive det st e.2
     registry := st.registry },
   st.infos.length)

/-- The loop of getStatus over a list of registry entries, threading the
store and collecting the references of the pushed copies in order. -/
def getStatusGo (alive : Nat → Bool) (det : Nat → List Nat) :
    Store → List (String × Nat) → Store × List Nat
  | st, [] => (st, [])
  | st, e :: tl =>
      let p := getStatusStep alive det st e
      let q := getStatusGo alive det p.1 tl
      (q.1, p.2 :: q.2)

/-- ProcessManager.getStatus (EnvLoader.ts lines 462-486): iterate over
the registry and return the references of the spread copies pushed into
activeProcesses. -/
def getStatusPM (alive : Nat → Bool) (det : Nat → List Nat) (st : Store) :
    Store × List Nat :=
  getStatusGo alive det st st.registry

/-- A caller assigning a new value to the status field of an object it
received: mutates that object only. -/
def setInfoStatus (st : Store) (r : Nat) (v : PStatus) : Store :=
  { st with infos := st.infos.set r { infoAt st r with status := v } }

/-- A caller pushing a port in place onto the ports array of an object it
received: mutates the shared array on the array heap. -/
def pushPortInPlace (st : Store) (r : Nat) (p : Nat) : Store :=
  { st with
      arrays := st.arrays.set (infoAt st r).portsRef
        (arrAt st (infoAt st r).portsRef ++ [p]) }

/-- The observable content of one registry entry: directory, pid, status
and the ports list its array reference designates. -/
def viewEntry (st : Store) (e : String × Nat) :
    String × Nat × PStatus × List Nat :=
  (e.1, (infoAt st e.2).pid, (infoAt st e.2).status,
    arrAt st (infoAt st e.2).portsRef)

/-- The observable content of the supervisor registry. -/
def registryView (st : Store) : List (String × Nat × PStatus × List Nat) :=
  st.registry.map (fun e => viewEntry st e)

/-- getD after set at a different index. -/
theorem getD_set_ne {α : Type} (l : List α) (i j : Nat) (x d : α)
    (h : i ≠ j) : (l.set i x).getD j d = l.getD j d := by
  simp [List.getD_eq_getElem?_getD, List.getElem?_set_ne h]

/-- getD after set at the written index. -/
theorem getD_set_self {α : Type} (l : List α) (i : Nat) (x d : α)
    (h : i < l.length) : (l.set i x).getD i d = x := by
  simp [List.getD_eq_getElem?_getD, List.getElem?_set_eq_of_lt x h]

/-- getD in the left part of an append. -/
theorem getD_append_left {α : Type} (l₁ l₂ : List α) (n : Nat) (d : α)
    (h : n < l₁.length) : (l₁ ++ l₂).getD n d = l₁.getD n d := by
  simp [List.getD_eq_getElem?_getD, List.getElem?_append_left h]

/-- getD of the appended element. -/
theorem getD_concat_length {α : Type} (l : List α) (x d : α) :
    (l ++ [x]).getD l.length d = x := by
  simp [List.getD_eq_getElem?_getD, List.getElem?_concat_length]


/-- Facts about one getStatus loop iteration: the registry is untouched,
the info heap grows by exactly the pushed copy, the returned copy
reference is the old heap end, objects other than the processed entry are
untouched, the copy and the processed entry hold the same record (in
particular the same ports-array reference), and existing arrays are
untouched. -/
theorem getStatusStep_facts (alive : Nat → Bool) (det : Nat → List Nat)
    (st : Store) (e : String × Nat) (hr : e.2 < st.infos.length) :
    (getStatusStep alive det st e).1.registry = st.registry ∧
    (getStatusStep alive det st e).1.infos.length = st.infos.length + 1 ∧
    (getStatusStep alive det st e).2 = st.infos.length ∧
    (∀ q, q < st.infos.length → q ≠ e.2 →
      infoAt (getStatusStep alive det st e).1 q = infoAt st q) ∧
    infoAt (getStatusStep alive det st e).1 st.infos.length =
      infoAt (getStatusStep alive det st e).1 e.2 ∧
    (∀ j, j < st.arrays.length →
      arrAt (getStatusStep alive det st e).1 j = arrAt st j) ∧
    st.arrays.length ≤ (getStatusStep alive det st e).1.arrays.length := by
  have hlen : (st.infos.set e.2 (stepObj alive st e.2)).length =
      st.infos.length := List.length_set _ _ _
  refine ⟨rfl, ?_, rfl, ?_, ?_, ?_, ?_⟩
  · simp [getStatusStep, List.length_set]
  · intro q hq hne
    show ((st.infos.set e.2 (stepObj alive st e.2)) ++
      [stepObj alive st e.2]).getD q dummyPInfo = infoAt st q
    rw [getD_append_left _ _ _ _ (by rw [hlen]; exact hq)]
    exact getD_set_ne _ _ _ _ _ (fun h => hne h.symm)
  · show ((st.infos.set e.2 (stepObj alive st e.2)) ++
      [stepObj alive st e.2]).getD st.infos.length dummyPInfo =
      ((st.infos.set e.2 (stepObj alive st e.2)) ++
      [stepObj alive st e.2]).getD e.2 dummyPInfo
    conv_lhs => rw [← hlen]
    rw [getD_concat_length]
    rw [getD_append_left _ _ _ _ (by rw [hlen]; exact hr)]
    rw [getD_set_self _ _ _ _ hr]
  · intro j hj
    show (stepArrays alive det st e.2).getD j [] = arrAt st j
    unfold stepArrays
    by_cases hc : (alive (if alive (infoAt st e.2).pid = false ∧
          (infoAt st e.2).status = PStatus.running
        then { infoAt st e.2 with status := PStatus.stopped }
        else infoAt st e.2).pid &&
        decide (arrAt st (if alive (infoAt st e.2).pid = false ∧
            (infoAt st e.2).status = PStatus.running
          then { infoAt st e.2 with status := PStatus.stopped }
          else infoAt st e.2).portsRef = [])) = true
    · simp only [hc, if_true]
      exact getD_append_left _ _ _ _ hj
    · simp only [hc, if_false]
      rfl
  · show st.arrays.length ≤ (stepArrays alive det st e.2).length
    unfold stepArrays
    by_cases hc : (alive (if alive (infoAt st e.2).pid = false ∧
          (infoAt st e.2).status = PStatus.running
        then { infoAt st e.2 with status := PStatus.stopped }
        else infoAt st e.2).pid &&
        decide (arrAt st (if alive (infoAt st e.2).pid = false ∧
            (infoAt st e.2).status = PStatus.running
          then { infoAt st e.2 with status := PStatus.stopped }
          else infoAt st e.2).portsRef = [])) = true
    · simp [hc]
    · simp [hc]

/-- Invariants of the getStatus loop, by induction over the processed
entries: the registry list is untouched; the info heap only grows; every
returned copy reference points past the original heap end (copies are
freshly allocated, distinct from every pre-existing object); objects not
belonging to a processed entry are untouched; pre-existing arrays are
untouched; and each returned copy holds the same record as its registry
entry, ports-array reference included. -/
theorem getStatusGo_spec (alive : Nat → Bool) (det : Nat → List Nat)
    (entries : List (String × Nat)) :
    ∀ (st : Store),
    (∀ e ∈ entries, e.2 < st.infos.length) →
    (entries.map Prod.snd).Nodup →
    ((getStatusGo alive det st entries).1.registry = st.registry ∧
     st.infos.length ≤ (getStatusGo alive det st entries).1.infos.length ∧
     (∀ c ∈ (getStatusGo alive det st entries).2,
        st.infos.length ≤ c ∧
        c < (getStatusGo alive det st entries).1.infos.length) ∧
     (∀ q, q < st.infos.length → q ∉ entries.map Prod.snd →
        infoAt (getStatusGo alive det st entries).1 q = infoAt st q) ∧
     (∀ j, j < st.arrays.length →
        arrAt (getStatusGo alive det st entries).1 j = arrAt st j) ∧
     st.arrays.length ≤ (getStatusGo alive det st entries).1.arrays.length ∧
     (∀ p ∈ List.zip entries (getStatusGo alive det st entries).2,
        infoAt (getStatusGo alive det st entries).1 p.2 =
          infoAt (getStatusGo alive det st entries).1 p.1.2)) := by
  induction entries with
  | nil =>
      intro st _ _
      simp [getStatusGo]
  | cons e tl ih =>
      intro st hrefs hnd
      have hre : e.2 < st.infos.length := hrefs e (by simp)
      obtain ⟨f1, f2, f3, f4, f5, f6, f7⟩ :=
        getStatusStep_facts alive det st e hre
      have hrefs' : ∀ e' ∈ tl, e'.2 < (getStatusStep alive det st e).1.infos.length := by
        intro e' he'
        have h := hrefs e' (by simp [he'])
        omega
      have hnd0 : e.2 ∉ tl.map Prod.snd ∧ (tl.map Prod.snd).Nodup := by
        have := hnd
        rw [List.map_cons, List.nodup_cons] at this
        exact this
      obtain ⟨g1, g2, g3, g4, g5, g6, g7⟩ :=
        ih (getStatusStep alive det st e).1 hrefs' hnd0.2
      have htlref : ∀ e' ∈ tl, e'.2 < st.infos.length := by
        intro e' he'
        exact hrefs e' (by simp [he'])
      simp only [getStatusGo]
      refine ⟨?_, ?_, ?_, ?_, ?_, ?_, ?_⟩
      · rw [g1, f1]
      · omega
      · intro c hc
        rcases List.mem_cons.mp hc with hc | hc
        · subst hc
          constructor
          · omega
          · omega
        · have := g3 c hc
          constructor
          · omega
          · omega
      · intro q hq hqn
        have hq1 : q ∉ tl.map Prod.snd := by
          intro hx
          exact hqn (by simp [hx])
        have hq2 : q ≠ e.2 := by
          intro hx
          exact hqn (by simp [hx])
        rw [g4 q (by omega) hq1, f4 q hq hq2]
      · intro j hj
        rw [g5 j (by omega), f6 j hj]
      · omega
      · intro p hp
        rw [List.zip_cons_cons] at hp
        rcases List.mem_cons.mp hp with hp | hp
        · subst hp
          have hcne : st.infos.length ∉ tl.map Prod.snd := by
            intro hx
            rcases List.mem_map.mp hx with ⟨e', he', hee⟩
            have := htlref e' he'
            omega
          have hene : e.2 ∉ tl.map Prod.snd := hnd0.1
          rw [f3]
          rw [g4 st.infos.length (by omega) hcne]
          rw [g4 e.2 (by omega) hene]
          exact f5
        · exact g7 p hp

/-- Assigning to a field of an object no registry entry points to leaves
the observable registry content unchanged. -/
theorem registryView_setInfoStatus (st : Store) (c : Nat) (v : PStatus)
    (h : ∀ e ∈ st.registry, e.2 ≠ c) :
    registryView (setInfoStatus st c v) = registryView st := by
  unfold registryView
  have hreg : (setInfoStatus st c v).registry = st.registry := rfl
  rw [hreg]
  apply List.map_congr_left
  intro e he
  have hne : e.2 ≠ c := h e he
  unfold viewEntry
  have hinfo : infoAt (setInfoStatus st c v) e.2 = infoAt st e.2 := by
    unfold infoAt setInfoStatus
    exact getD_set_ne _ _ _ _ _ (fun hx => hne hx.symm)
  have harr : ∀ j, arrAt (setInfoStatus st c v) j = arrAt st j := by
    intro j
    rfl
  rw [hinfo, harr]

/-- C10 amended: getStatus returns, for each registry entry, a freshly
allocated record, never the registry object itself: every returned
reference lies past the pre-call heap end and differs from every registry
reference.  Each returned record holds the same field values as its
entry, in particular the same ports-array reference, so the ports array
is shared rather than copied; the registry mapping itself is unchanged.
Assigning a new value to the status field of a returned record leaves the
observable registry content (directory, pid, status, ports of every
entry) unchanged; in-place mutation of the shared ports array, by
contrast, is visible in the registry, as the counterexample shows. -/
theorem getStatus_returns_fresh_copies_sharing_ports_array
    (st : Store) (alive : Nat → Bool) (det : Nat → List Nat)
    (href : ∀ e ∈ st.registry, e.2 < st.infos.length)
    (hnd : (st.registry.map Prod.snd).Nodup) :
    (getStatusPM alive det st).1.registry = st.registry ∧
    (∀ c ∈ (getStatusPM alive det st).2,
       st.infos.length ≤ c ∧ ∀ e ∈ st.registry, e.2 ≠ c) ∧
    (∀ p ∈ List.zip st.registry (getStatusPM alive det st).2,
       infoAt (getStatusPM alive det st).1 p.2 =
         infoAt (getStatusPM alive det st).1 p.1.2) ∧
    (∀ c ∈ (getStatusPM alive det st).2, ∀ v,
       registryView (setInfoStatus (getStatusPM alive det st).1 c v) =
         registryView (getStatusPM alive det st).1) := by
  obtain ⟨g1, g2, g3, g4, g5, g6, g7⟩ :=
    getStatusGo_spec alive det st.registry st href hnd
  refine ⟨g1, ?_, g7, ?_⟩
  · intro c hc
    refine ⟨(g3 c hc).1, ?_⟩
    intro e he
    have h1 := href e he
    have h2 := (g3 c hc).1
    omega
  · intro c hc v
    apply registryView_setInfoStatus
    intro e he
    have hpm : (getStatusPM alive det st).1.registry = st.registry := g1
    rw [hpm] at he
    have h1 := href e he
    have h2 := (g3 c hc).1
    omega

/-- A one-entry store: the registry entry for directory /a points at the
only heap object, whose ports array holds port 3000. -/
def c10Store : Store :=
  { infos := [{ pid := 100, directory := "/a", status := PStatus.running,
                startTime := 0, portsRef := 0 }]
    arrays := [[3000]]
    registry := [("/a", 0)] }

/-- Witness for the amended C10 theorem at the one-entry store: the
registry mapping survives a getStatus call unchanged. -/
theorem getStatus_returns_fresh_copies_sharing_ports_array_witness :
    (getStatusPM (fun _ => true) (fun _ => []) c10Store).1.registry =
      c10Store.registry :=
  (getStatus_returns_fresh_copies_sharing_ports_array c10Store
    (fun _ => true) (fun _ => []) (by decide) (by decide)).1

/-- Counterexample to C10: the spread copy returned by getStatus shares
its ports array with the registry entry, so a caller pushing a port onto
the returned record changes the ports the registry reports for /a, and a
subsequent getStatus call returns a copy carrying the mutated ports list:
the returned objects are not fresh copies in the sense of the claim. -/
theorem getStatus_copy_mutation_reaches_registry :
    (getStatusPM (fun _ => true) (fun _ => []) c10Store).2 = [1] ∧
    registryView (getStatusPM (fun _ => true) (fun _ => []) c10Store).1 =
      [("/a", 100, PStatus.running, [3000])] ∧
    registryView
        (pushPortInPlace
          (getStatusPM (fun _ => true) (fun _ => []) c10Store).1 1 9999) =
      [("/a", 100, PStatus.running, [3000, 9999])] ∧
    (getStatusPM (fun _ => true) (fun _ => [])
        (pushPortInPlace
          (getStatusPM (fun _ => true) (fun _ => []) c10Store).1 1 9999)).2 =
      [2] ∧
    arrAt
        (getStatusPM (fun _ => true) (fun _ => [])
          (pushPortInPlace
            (getStatusPM (fun _ => true) (fun _ => []) c10Store).1 1 9999)).1
        (infoAt
          (getStatusPM (fun _ => true) (fun _ => [])
            (pushPortInPlace
              (getStatusPM (fun _ => true) (fun _ => []) c10Store).1 1 9999)).1
          2).portsRef =
      [3000, 9999] := by
  refine ⟨rfl, rfl, rfl, rfl, rfl⟩
